import Mathlib

/-!
Verification of the image-usage correlation and enrichment pipeline
(`lighthouse-core/gather/gatherers/image-usage.js` and its sibling variant).

The two source variants of `ImageUsage.afterPass` are embedded as pure
functions: promises become `Except`, the per-pass URL-keyed object map
becomes a function `String -> Option _`, and the remote page execution
(`driver.evaluateAsync` of `determineNaturalSize`) becomes an explicit
resolver parameter `String -> Except Unit NaturalSize`.  JSON
stringify/parse of the `sources` field is a round-trip and is modelled
as the identity, so `sources` is carried as the parsed list throughout.
-/

namespace ImageUsage

/-- A raw network transfer as consumed by `afterPass` from
`traceData.networkRecords`: the fields the code reads (`_mimeType`,
`_url`, and the projected fields `url`, `requestHeaders`,
`resourceSize`, `startTime`, `endTime`, `responseReceivedTime`). -/
structure RawTransfer where
  mimeTypeInternal : String
  urlInternal : String
  url : String
  requestHeaders : Option String
  resourceSize : Option Nat
  startTime : Int
  endTime : Int
  responseReceivedTime : Option Int
  deriving Repr, DecidableEq

/-- The reduced projection stored by the `image-usage.js` variant:
`pick(record, ['url', 'requestHeaders', 'resourceSize', 'startTime', 'endTime'])`. -/
structure NetworkRecordTag where
  url : String
  requestHeaders : Option String
  resourceSize : Option Nat
  startTime : Int
  endTime : Int
  deriving Repr, DecidableEq

/-- The reduced projection stored by the `part_000` variant:
the explicit object literal with `url`, `resourceSize`, `startTime`,
`endTime`, `responseReceivedTime`. -/
structure NetworkRecordElem where
  url : String
  resourceSize : Option Nat
  startTime : Int
  endTime : Int
  responseReceivedTime : Option Int
  deriving Repr, DecidableEq

/-- `pick(record, ['url', 'requestHeaders', 'resourceSize', 'startTime', 'endTime'])`
as instantiated at the call site in `image-usage.js` `afterPass`. -/
def pick (record : RawTransfer) : NetworkRecordTag :=
  { url := record.url
    requestHeaders := record.requestHeaders
    resourceSize := record.resourceSize
    startTime := record.startTime
    endTime := record.endTime }

/-- The object literal projection in the `part_000` variant of `afterPass`. -/
def projectElem (record : RawTransfer) : NetworkRecordElem :=
  { url := record.url
    resourceSize := record.resourceSize
    startTime := record.startTime
    endTime := record.endTime
    responseReceivedTime := record.responseReceivedTime }

/-- Character-level prefix test (first argument is the candidate
prefix), used to embed the JS regexp test of a start-anchored literal
pattern. -/
def charsStartWith : List Char → List Char → Bool
  | [], _ => true
  | _ :: _, [] => false
  | p :: ps, c :: cs => p == c && charsStartWith ps cs

/-- JS `String.prototype.split` with a single-character separator:
splits at every occurrence, keeping empty pieces, and yields one piece
even for the empty string. -/
def jsSplit (sep : Char) : List Char → List (List Char)
  | [] => [[]]
  | c :: cs =>
    match jsSplit sep cs with
    | [] => [[c]]
    | piece :: pieces =>
      if c == sep then [] :: piece :: pieces else (c :: piece) :: pieces

/-- String-valued wrapper of `jsSplit`. -/
def jsSplitOn (sep : Char) (s : String) : List String :=
  (jsSplit sep s.data).map String.mk

/-- JS `String.prototype.trim`: strip leading and trailing whitespace. -/
def jsTrim (s : String) : String :=
  String.mk (((s.data.dropWhile Char.isWhitespace).reverse.dropWhile
    Char.isWhitespace).reverse)

/-- The filter `/^image/.test(record._mimeType)`: a JS regexp test of
an unanchored-at-the-end, start-anchored literal pattern, i.e. a
prefix test of the string "image". -/
def isImageMime (record : RawTransfer) : Bool :=
  charsStartWith "image".data record.mimeTypeInternal.data

/-- `traceData.networkRecords.reduce(...)` building `indexedNetworkRecords`:
an initially empty URL-keyed map, where each image-typed transfer
overwrites the entry at key `record._url` with its projection.  Shared
shape of both variants, parameterised by the stored projection. -/
def indexedNetworkRecords {ν : Type} (proj : RawTransfer → ν)
    (records : List RawTransfer) : String → Option ν :=
  records.foldl
    (fun map record =>
      if isImageMime record then
        fun u => if u = record.urlInternal then some (proj record) else map u
      else map)
    (fun _ => none)

/-- The transfers of `records` that are image-typed and keyed at `u`:
exactly those that write the index entry for `u`. -/
def imageTransfersAt (u : String) (records : List RawTransfer) : List RawTransfer :=
  records.filter fun record => isImageMime record && record.urlInternal == u

/-- The natural-size object resolved by `determineNaturalSize`:
`{naturalWidth, naturalHeight}` read off the freshly loaded image. -/
structure NaturalSize where
  naturalWidth : Nat
  naturalHeight : Nat
  deriving Repr, DecidableEq

/-- The object built by `getElementInfo` (`toObject` in the tag variant):
one descriptor per `img`/`source` element. -/
structure ElementInfo where
  tagName : String
  src : String
  srcset : String
  srcsetUrls : List String
  sizes : String
  media : String
  clientWidth : Nat
  clientHeight : Nat
  naturalWidth : Nat
  naturalHeight : Nat
  deriving Repr, DecidableEq

/-- A top-level element returned by `collectImageElementInfo`: the
descriptor plus `isPicture` and, for picture-grouped images, the
`sources` list (JSON stringify/parse of `sources` round-trips, so the
field carries the list itself). -/
structure ImageElement extends ElementInfo where
  isPicture : Bool
  sources : Option (List ElementInfo)
  deriving Repr, DecidableEq

/-- An element record during `afterPass`, after the mutation
`tag.networkRecord = indexedNetworkRecords[tag.src]`: parameterised by
the network-record projection type, which differs between the two
source variants. -/
structure ImageRecord (ν : Type) extends ImageElement where
  networkRecord : Option ν
  deriving Repr, DecidableEq

/-- The DOM state of one `img` or `source` element, as read by
`getElementInfo` inside the page. -/
structure DomElement where
  tagName : String
  currentSrc : String
  srcset : String
  sizes : String
  media : String
  clientWidth : Nat
  clientHeight : Nat
  naturalWidth : Nat
  naturalHeight : Nat
  deriving Repr, DecidableEq

/-- One `img` element of `document.querySelectorAll('img')` together
with the parent data the collector inspects. -/
structure DomImg where
  img : DomElement
  parentTagName : String
  parentChildren : List DomElement
  deriving Repr, DecidableEq

/-- `parseSrcsetUrls` of the `part_000` variant: split the attribute on
commas, take the URL part of each candidate, and resolve each against
the document base (`new URL(url, window.location.href).href`, modelled
by the `resolveUrl` parameter); a candidate whose resolution fails
(`catch`) is returned verbatim.  The `a.href` normalisation of the tag
variant is the special case of a `resolveUrl` that never fails. -/
def parseSrcsetUrls (resolveUrl : String → Option String) (srcset : String) : List String :=
  if srcset = "" then []
  else
    let entries := jsSplitOn ',' srcset
    let relativeUrls := entries.map fun entry => (jsSplitOn ' ' (jsTrim entry)).headD ""
    relativeUrls.map fun url => (resolveUrl url).getD url

/-- `getElementInfo(element)` (named `toObject` in the tag variant). -/
def getElementInfo (resolveUrl : String → Option String) (element : DomElement) :
    ElementInfo :=
  { tagName := element.tagName
    src := element.currentSrc
    srcset := element.srcset
    srcsetUrls := parseSrcsetUrls resolveUrl element.srcset
    sizes := element.sizes
    media := element.media
    clientWidth := element.clientWidth
    clientHeight := element.clientHeight
    naturalWidth := element.naturalWidth
    naturalHeight := element.naturalHeight }

/-- The body of the `map` callback of `collectImageElementInfo`: for an
`img` whose parent is not a `picture`, the bare descriptor with
`isPicture: false`; otherwise the descriptor with `isPicture: true` and
`sources` listing the sibling `source` elements that pass the tag and
media filters, with the image element appended last.  The live media
query `window.matchMedia(media).matches` is the `matchMedia` parameter,
and a falsy (empty) `media` attribute short-circuits it. -/
def collectOneImage (resolveUrl : String → Option String) (matchMedia : String → Bool)
    (d : DomImg) : ImageElement :=
  let imgElementInfo := getElementInfo resolveUrl d.img
  if d.parentTagName ≠ "PICTURE" then
    { imgElementInfo with isPicture := false, sources := none }
  else
    let sources :=
      ((d.parentChildren.filter fun element => element.tagName == "SOURCE").filter
          fun element => element.media == "" || matchMedia element.media).map
        (getElementInfo resolveUrl)
      ++ [imgElementInfo]
    { imgElementInfo with isPicture := true, sources := some sources }

/-- `collectImageElementInfo` (`collectImageTagInfo` in the tag variant):
one output element per `img` in document order. -/
def collectImageElementInfo (resolveUrl : String → Option String)
    (matchMedia : String → Bool) (imgs : List DomImg) : List ImageElement :=
  imgs.map (collectOneImage resolveUrl matchMedia)

/-- The correlation step executed per element inside `afterPass`:
rehydrate `sources` (a parse/stringify round-trip, the identity here)
and attach `tag.networkRecord = indexedNetworkRecords[tag.src]`. -/
def correlateOne {ν : Type} (idx : String → Option ν) (element : ImageElement) :
    ImageRecord ν :=
  { toImageElement := element, networkRecord := idx element.src }

/-- The Correlator stage over a whole snapshot, in snapshot order. -/
def correlate {ν : Type} (idx : String → Option ν) (elements : List ImageElement) :
    List (ImageRecord ν) :=
  elements.map (correlateOne idx)

/-- The condition of the ternary in `afterPass`:
`tag.isPicture && tag.networkRecord` (the matched network record is the
only possibly-falsy operand of the conjunction). -/
def needsSizeResolution {ν : Type} (record : ImageRecord ν) : Bool :=
  record.isPicture && record.networkRecord.isSome

/-- `fetchElementWithSizeInformation` (`fetchTagWithSizeInformation` in
the tag variant): run `determineNaturalSize(element.src)` in the page
(the `resolve` parameter; a rejected promise is `Except.error`) and on
success `Object.assign(element, size)`, overwriting `naturalWidth` and
`naturalHeight`.  There is no rejection handler, so a rejection
propagates. -/
def fetchWithSizeInformation {ν : Type} (resolve : String → Except Unit NaturalSize)
    (record : ImageRecord ν) : Except Unit (ImageRecord ν) :=
  (resolve record.src).map fun size =>
    { record with naturalWidth := size.naturalWidth, naturalHeight := size.naturalHeight }

/-- The per-element body of `afterPass`: correlate, then either fetch
real size information (picture element with a matched network record)
or pass the record through as `Promise.resolve(tag)`. -/
def processOne {ν : Type} (resolve : String → Except Unit NaturalSize)
    (idx : String → Option ν) (element : ImageElement) : Except Unit (ImageRecord ν) :=
  let record := correlateOne idx element
  if needsSizeResolution record then fetchWithSizeInformation resolve record
  else Except.ok record

/-- `Promise.all`: positional assembly of the settled values, rejecting
if any member rejects. -/
def promiseAll {ε α : Type} : List (Except ε α) → Except ε (List α)
  | [] => Except.ok []
  | x :: xs => x.bind fun a => (promiseAll xs).map fun as => a :: as

/-- `afterPass` of the `image-usage.js` variant: `Promise.all` over the
per-element promises, in snapshot order. -/
def afterPassParallel {ν : Type} (resolve : String → Except Unit NaturalSize)
    (idx : String → Option ν) (elements : List ImageElement) :
    Except Unit (List (ImageRecord ν)) :=
  promiseAll (elements.map (processOne resolve idx))

/-- `afterPass` of the `part_000` variant: the throttled-serial
`reduce` chain pushing each awaited record onto the collector, starting
from `Promise.resolve([])`. -/
def afterPassSerial {ν : Type} (resolve : String → Except Unit NaturalSize)
    (idx : String → Option ν) (elements : List ImageElement) :
    Except Unit (List (ImageRecord ν)) :=
  elements.foldl
    (fun promise element =>
      promise.bind fun collector =>
        (processOne resolve idx element).map fun record => collector ++ [record])
    (Except.ok [])

/-- A concrete image-typed transfer used to instantiate the theorems
below on explicit inputs. -/
def exTransfer : RawTransfer :=
  { mimeTypeInternal := "image/png"
    urlInternal := "http://x/a.png"
    url := "http://x/a.png"
    requestHeaders := some "Cookie: a"
    resourceSize := some 100
    startTime := 1
    endTime := 2
    responseReceivedTime := some 3 }

/-- The same transfer with the request headers removed. -/
def exTransferNoHeaders : RawTransfer := { exTransfer with requestHeaders := none }

/-- A concrete transfer outside the image mime family. -/
def exCssTransfer : RawTransfer :=
  { exTransfer with
    mimeTypeInternal := "text/css"
    urlInternal := "http://x/s.css"
    url := "http://x/s.css" }

/-- A concrete element descriptor whose source URL matches `exTransfer`. -/
def exInfo : ElementInfo :=
  { tagName := "IMG"
    src := "http://x/a.png"
    srcset := ""
    srcsetUrls := []
    sizes := ""
    media := ""
    clientWidth := 10
    clientHeight := 20
    naturalWidth := 0
    naturalHeight := 0 }

/-- A concrete picture-grouped element with a matched network record. -/
def exPictureElement : ImageElement :=
  { toElementInfo := exInfo, isPicture := true, sources := some [exInfo] }

/-- A concrete non-picture element whose source URL has no transfer. -/
def exPlainElement : ImageElement :=
  { toElementInfo := { exInfo with src := "http://x/b.png" }
    isPicture := false
    sources := none }

/-- The index built from the single concrete image transfer. -/
def exIdx : String → Option NetworkRecordElem :=
  indexedNetworkRecords projectElem [exTransfer]

/-- A Size Resolver whose every call rejects. -/
def failResolve : String → Except Unit NaturalSize := fun _ => Except.error ()

/-- A Size Resolver whose every call resolves with 100 times 50 pixels. -/
def okResolve : String → Except Unit NaturalSize :=
  fun _ => Except.ok { naturalWidth := 100, naturalHeight := 50 }

/-- A URL normaliser whose every call fails. -/
def noResolveUrl : String → Option String := fun _ => none

/-- A media query evaluator under which every condition matches. -/
def allMedia : String → Bool := fun _ => true

/-- A concrete `source` element inside a picture grouping. -/
def exSourceDom : DomElement :=
  { tagName := "SOURCE"
    currentSrc := ""
    srcset := "s.png"
    sizes := ""
    media := ""
    clientWidth := 0
    clientHeight := 0
    naturalWidth := 0
    naturalHeight := 0 }

/-- A concrete `img` element inside a picture grouping. -/
def exImgDom : DomElement :=
  { exSourceDom with tagName := "IMG", currentSrc := "http://x/a.png", srcset := "" }

/-- A concrete `img` whose parent is a `picture` with one `source` sibling. -/
def exPictureImg : DomImg :=
  { img := exImgDom
    parentTagName := "PICTURE"
    parentChildren := [exSourceDom, exImgDom] }

/-- Concrete snapshot for the ordering theorems: a plain element
followed by a qualifying picture element. -/
def exElems : List ImageElement := [exPlainElement, exPictureElement]

/-- The expected output of either `afterPass` variant on `exElems`
with `okResolve`: the plain element passes through and the picture
element gains the resolved 100 times 50 dimensions. -/
def exOut : List (ImageRecord NetworkRecordElem) :=
  [ correlateOne exIdx exPlainElement
  , { correlateOne exIdx exPictureElement with naturalWidth := 100, naturalHeight := 50 } ]

theorem getLast?_cons_getD {α : Type} : ∀ (a : α) (l : List α),
    (a :: l).getLast? = some (l.getLast?.getD a)
  | _, [] => rfl
  | a, b :: l => by
    rw [List.getLast?_cons_cons, getLast?_cons_getD b l]
    rfl

theorem indexedNetworkRecords_aux {ν : Type} (proj : RawTransfer → ν) (u : String) :
    ∀ (records : List RawTransfer) (m : String → Option ν),
      records.foldl
        (fun map record =>
          if isImageMime record then
            fun v => if v = record.urlInternal then some (proj record) else map v
          else map) m u
      = ((imageTransfersAt u records).getLast?.map proj).or (m u) := by
  intro records
  induction records with
  | nil => intro m; simp [imageTransfersAt]
  | cons t ts ih =>
    intro m
    rw [List.foldl_cons, ih]
    simp only [imageTransfersAt, List.filter_cons]
    by_cases himg : isImageMime t
    · by_cases hurl : t.urlInternal = u
      · simp only [himg, hurl, if_pos, beq_self_eq_true, Bool.and_self, if_true,
          Bool.and_true, getLast?_cons_getD]
        cases hl : (List.filter (fun record =>
            isImageMime record && record.urlInternal == u) ts).getLast? with
        | none => simp [imageTransfersAt, hl, hurl]
        | some t' => simp [imageTransfersAt, hl, hurl]
      · simp [imageTransfersAt, himg, hurl, Ne.symm hurl]
    · simp [imageTransfersAt, himg]

/-- Lookup characterisation of the network record index: the entry at
key `u` is the projection of the last image-typed transfer whose URL
key is `u`, or absent when there is none. -/
theorem indexedNetworkRecords_lookup {ν : Type} (proj : RawTransfer → ν)
    (records : List RawTransfer) (u : String) :
    indexedNetworkRecords proj records u
      = (imageTransfersAt u records).getLast?.map proj := by
  rw [indexedNetworkRecords, indexedNetworkRecords_aux]
  simp

theorem jsSplit_ne_nil (sep : Char) : ∀ (cs : List Char), jsSplit sep cs ≠ [] := by
  intro cs
  cases cs with
  | nil => simp [jsSplit]
  | cons c cs =>
    simp only [jsSplit]
    cases jsSplit sep cs with
    | nil => simp
    | cons piece pieces =>
      by_cases h : (c == sep) = true <;> simp [h]

/-- A character-level split yields one piece more than the number of
separator occurrences. -/
theorem jsSplit_length (sep : Char) : ∀ (cs : List Char),
    (jsSplit sep cs).length = cs.count sep + 1 := by
  intro cs
  induction cs with
  | nil => rfl
  | cons c cs ih =>
    simp only [jsSplit]
    cases h : jsSplit sep cs with
    | nil => exact absurd h (jsSplit_ne_nil sep cs)
    | cons piece pieces =>
      rw [h] at ih
      by_cases hc : (c == sep) = true
      · have : c = sep := by simpa using hc
        simp [hc, List.count_cons, this, ← ih]
      · have : ¬ c = sep := by simpa using hc
        simp [hc, List.count_cons, this, ← ih]

theorem promiseAll_ok_length {ε α : Type} :
    ∀ {l : List (Except ε α)} {out : List α},
      promiseAll l = Except.ok out → out.length = l.length := by
  intro l
  induction l with
  | nil =>
    intro out h
    simp only [promiseAll] at h
    cases h
    rfl
  | cons x xs ih =>
    intro out h
    cases x with
    | error e => simp [promiseAll, Except.bind] at h
    | ok a =>
      simp only [promiseAll, Except.bind] at h
      cases hxs : promiseAll xs with
      | error e => rw [hxs] at h; simp [Except.map] at h
      | ok rest =>
        rw [hxs] at h
        simp only [Except.map] at h
        cases h
        simp [ih hxs]

theorem promiseAll_ok_get {ε α : Type} :
    ∀ {l : List (Except ε α)} {out : List α},
      promiseAll l = Except.ok out →
        ∀ i, out.get? i = (l.get? i).bind Except.toOption := by
  intro l
  induction l with
  | nil =>
    intro out h i
    simp only [promiseAll] at h
    cases h
    rfl
  | cons x xs ih =>
    intro out h i
    cases x with
    | error e => simp [promiseAll, Except.bind] at h
    | ok a =>
      simp only [promiseAll, Except.bind] at h
      cases hxs : promiseAll xs with
      | error e => rw [hxs] at h; simp [Except.map] at h
      | ok rest =>
        rw [hxs] at h
        simp only [Except.map] at h
        cases h
        cases i with
        | zero => rfl
        | succ i => simpa using ih hxs i

theorem foldl_collect_error {ε α β : Type} (g : β → Except ε α) (e : ε) :
    ∀ (l : List β),
      l.foldl
        (fun promise b => promise.bind fun collector => (g b).map fun r => collector ++ [r])
        (Except.error e) = Except.error e := by
  intro l
  induction l with
  | nil => rfl
  | cons b bs ih => simpa [Except.bind] using ih

theorem afterPassSerial_aux {ε α β : Type} (g : β → Except ε α) :
    ∀ (l : List β) (col : List α),
      l.foldl
        (fun promise b => promise.bind fun collector => (g b).map fun r => collector ++ [r])
        (Except.ok col)
      = (promiseAll (l.map g)).map fun out => col ++ out := by
  intro l
  induction l with
  | nil => intro col; simp [promiseAll, Except.map]
  | cons b bs ih =>
    intro col
    cases hg : g b with
    | error e =>
      have hinit : ((Except.ok col).bind fun collector =>
          (g b).map fun r => collector ++ [r]) = (Except.error e : Except ε (List α)) := by
        rw [hg]; rfl
      rw [List.foldl_cons, hinit, foldl_collect_error]
      simp only [List.map_cons, promiseAll, hg]
      rfl
    | ok r =>
      have hinit : ((Except.ok col).bind fun collector =>
          (g b).map fun r => collector ++ [r]) = Except.ok (col ++ [r]) := by
        rw [hg]; rfl
      rw [List.foldl_cons, hinit, ih (col ++ [r])]
      simp only [List.map_cons, promiseAll, hg]
      cases hbs : promiseAll (bs.map g) with
      | error e => rfl
      | ok rest =>
        show Except.ok (col ++ [r] ++ rest) = Except.ok (col ++ (r :: rest))
        simp

/-- The two variants of `afterPass` compute the same function: the
serial `reduce` chain yields the same result as `Promise.all` over the
same per-element computations. -/
theorem afterPassSerial_eq_parallel {ν : Type} (resolve : String → Except Unit NaturalSize)
    (idx : String → Option ν) (elements : List ImageElement) :
    afterPassSerial resolve idx elements = afterPassParallel resolve idx elements := by
  rw [afterPassSerial, afterPassSerial_aux, afterPassParallel]
  cases h : promiseAll (elements.map (processOne resolve idx)) with
  | error e => simp [Except.map]
  | ok out => simp [Except.map]

/-- C5: the Network Record Index maps each distinct URL key to at most
one record (lookup yields an `Option`), and the entry retained for a
key is the projection of the last image-typed transfer carrying that
URL in input order — last-write-wins on duplicates.  Holds for the
projection of either source variant. -/
theorem networkRecordIndex_lastWriteWins {ν : Type} (proj : RawTransfer → ν)
    (records : List RawTransfer) (u : String) :
    indexedNetworkRecords proj records u
      = (imageTransfersAt u records).getLast?.map proj :=
  indexedNetworkRecords_lookup proj records u

/-- C9: a transfer outside the image mime family contributes no entry
to the index wherever it sits in the input, and every retained entry is
the projection of some image-typed transfer of the input with the
matching URL key. -/
theorem networkRecordIndex_imageMimeOnly {ν : Type} (proj : RawTransfer → ν)
    (ts₁ ts₂ : List RawTransfer) (t : RawTransfer)
    (records : List RawTransfer) (u : String) (r : ν) :
    (isImageMime t = false →
      ∀ v, indexedNetworkRecords proj (ts₁ ++ t :: ts₂) v
        = indexedNetworkRecords proj (ts₁ ++ ts₂) v)
    ∧ (indexedNetworkRecords proj records u = some r →
        ∃ t2, t2 ∈ records ∧ isImageMime t2 = true ∧ t2.urlInternal = u ∧ r = proj t2) := by
  constructor
  · intro ht v
    rw [indexedNetworkRecords_lookup, indexedNetworkRecords_lookup]
    have heq : imageTransfersAt v (ts₁ ++ t :: ts₂) = imageTransfersAt v (ts₁ ++ ts₂) := by
      simp [imageTransfersAt, List.filter_append, List.filter_cons, ht]
    rw [heq]
  · intro h
    rw [indexedNetworkRecords_lookup] at h
    cases hl : (imageTransfersAt u records).getLast? with
    | none => rw [hl] at h; simp at h
    | some t2 =>
      rw [hl] at h
      simp only [Option.map_some', Option.some.injEq] at h
      have hmem := List.mem_of_getLast?_eq_some hl
      have hfil := List.mem_filter.mp hmem
      refine ⟨t2, hfil.1, ?_, ?_, h.symm⟩
      · exact (Bool.and_eq_true _ _ ▸ hfil.2).1
      · have := (Bool.and_eq_true _ _ ▸ hfil.2).2
        simpa using this

theorem networkRecordIndex_imageMimeOnly_witness :
    indexedNetworkRecords projectElem [exCssTransfer] "http://x/s.css"
      = indexedNetworkRecords projectElem [] "http://x/s.css" :=
  (networkRecordIndex_imageMimeOnly projectElem [] [] exCssTransfer []
    "" (projectElem exCssTransfer)).1 (by decide) "http://x/s.css"

/-- C6 counterexample: in the `image-usage.js` variant the stored
record is not determined by the five claimed fields alone — two
transfers that differ only in `requestHeaders` are projected to
different index entries, and the header value is carried into the
entry. -/
theorem networkRecordProjection_carries_requestHeaders :
    indexedNetworkRecords pick [exTransfer] "http://x/a.png"
      ≠ indexedNetworkRecords pick [exTransferNoHeaders] "http://x/a.png"
    ∧ (indexedNetworkRecords pick [exTransfer] "http://x/a.png").map
        NetworkRecordTag.requestHeaders = some (some "Cookie: a") := by
  exact ⟨by decide, by decide⟩

/-- C6 amended: the `part_000` variant stores exactly the reduced
projection url, resourceSize, startTime, endTime, responseReceivedTime
(in particular the entry is unaffected by `requestHeaders`), while the
`image-usage.js` variant stores exactly url, requestHeaders,
resourceSize, startTime, endTime. -/
theorem networkRecordProjection_fields (t : RawTransfer)
    (h : isImageMime t = true) (hdr₁ hdr₂ : Option String) :
    indexedNetworkRecords projectElem [{ t with requestHeaders := hdr₁ }] t.urlInternal
      = indexedNetworkRecords projectElem [{ t with requestHeaders := hdr₂ }] t.urlInternal
    ∧ indexedNetworkRecords projectElem [t] t.urlInternal
      = some { url := t.url, resourceSize := t.resourceSize, startTime := t.startTime,
               endTime := t.endTime, responseReceivedTime := t.responseReceivedTime }
    ∧ indexedNetworkRecords pick [t] t.urlInternal
      = some { url := t.url, requestHeaders := t.requestHeaders,
               resourceSize := t.resourceSize, startTime := t.startTime,
               endTime := t.endTime } := by
  have h' : charsStartWith "image".data t.mimeTypeInternal.data = true := h
  refine ⟨?_, ?_, ?_⟩ <;>
    simp [indexedNetworkRecords, isImageMime, h', projectElem, pick]

theorem networkRecordProjection_fields_witness :
    indexedNetworkRecords projectElem [exTransfer] "http://x/a.png"
      = some { url := "http://x/a.png", resourceSize := some 100, startTime := 1,
               endTime := 2, responseReceivedTime := some 3 } :=
  (networkRecordProjection_fields exTransfer (by decide) none none).2.1

/-- C3: the Correlator emits exactly one record per input element, and
an element whose source URL has no index entry is still emitted at its
position, with `networkRecord` absent. -/
theorem correlate_total {ν : Type} (idx : String → Option ν)
    (elements : List ImageElement) :
    (correlate idx elements).length = elements.length
    ∧ ∀ i element, elements.get? i = some element → idx element.src = none →
        (correlate idx elements).get? i = some (correlateOne idx element)
        ∧ (correlateOne idx element).networkRecord = none := by
  refine ⟨by simp [correlate], ?_⟩
  intro i element hget hidx
  constructor
  · show (elements.map (correlateOne idx)).get? i = _
    rw [List.get?_map, hget]
    rfl
  · simp [correlateOne, hidx]

theorem correlate_total_witness :
    (correlate exIdx [exPlainElement]).length = 1
    ∧ (correlate exIdx [exPlainElement]).get? 0
        = some (correlateOne exIdx exPlainElement)
    ∧ (correlateOne exIdx exPlainElement).networkRecord = none := by
  have h := correlate_total exIdx [exPlainElement]
  have h2 := h.2 0 exPlainElement rfl (by decide)
  exact ⟨h.1, h2.1, h2.2⟩

/-- C4: the Size Resolver is consulted for a correlated record exactly
when the record is a picture and a network record was matched: the
derived condition equals `isPicture && (idx src).isSome`; with no
matched record the element passes through unchanged (for every
resolver, even when `isPicture` is true); and when the condition holds
the outcome is exactly the resolver's answer at the element's source
URL. -/
theorem sizeResolution_iff_picture_and_matched {ν : Type} (idx : String → Option ν)
    (resolve : String → Except Unit NaturalSize) (element : ImageElement) :
    needsSizeResolution (correlateOne idx element)
      = (element.isPicture && (idx element.src).isSome)
    ∧ (idx element.src = none →
        processOne resolve idx element = Except.ok (correlateOne idx element))
    ∧ (needsSizeResolution (correlateOne idx element) = true →
        processOne resolve idx element
          = (resolve element.src).map fun size =>
              { correlateOne idx element with
                naturalWidth := size.naturalWidth
                naturalHeight := size.naturalHeight }) := by
  refine ⟨rfl, ?_, ?_⟩
  · intro h
    simp [processOne, needsSizeResolution, correlateOne, h]
  · intro h
    have h' : needsSizeResolution
        { toImageElement := element, networkRecord := idx element.src } = true := h
    simp [processOne, correlateOne, h', fetchWithSizeInformation]

theorem sizeResolution_iff_witness :
    processOne okResolve exIdx exPlainElement
      = Except.ok (correlateOne exIdx exPlainElement) :=
  (sizeResolution_iff_picture_and_matched exIdx okResolve exPlainElement).2.1 (by decide)

/-- C2: on success, either `afterPass` variant returns a sequence of
the same length as the input whose element at every index `i` is the
enrichment of the input element at index `i`; the positional assembly
of `Promise.all` and of the serial `reduce` chain never reorders. -/
theorem afterPass_preserves_order {ν : Type} (resolve : String → Except Unit NaturalSize)
    (idx : String → Option ν) (elements : List ImageElement)
    (out : List (ImageRecord ν)) :
    (afterPassParallel resolve idx elements = Except.ok out →
      out.length = elements.length
      ∧ ∀ i, out.get? i
          = (elements.get? i).bind fun element => (processOne resolve idx element).toOption)
    ∧ (afterPassSerial resolve idx elements = Except.ok out →
      out.length = elements.length
      ∧ ∀ i, out.get? i
          = (elements.get? i).bind fun element => (processOne resolve idx element).toOption) := by
  have hp : afterPassParallel resolve idx elements = Except.ok out →
      out.length = elements.length
      ∧ ∀ i, out.get? i
          = (elements.get? i).bind fun element => (processOne resolve idx element).toOption := by
    intro h
    rw [afterPassParallel] at h
    constructor
    · have := promiseAll_ok_length h
      simpa using this
    · intro i
      have hg := promiseAll_ok_get h i
      rw [hg, List.get?_map]
      cases elements.get? i with
      | none => rfl
      | some element => rfl
  refine ⟨hp, fun h => hp ?_⟩
  rw [← afterPassSerial_eq_parallel]
  exact h

theorem afterPass_preserves_order_witness :
    exOut.length = exElems.length
    ∧ exOut.get? 1 = some { correlateOne exIdx exPictureElement with
        naturalWidth := 100, naturalHeight := 50 } := by
  have hpar := (afterPass_preserves_order okResolve exIdx exElems exOut).1 rfl
  have hser := (afterPass_preserves_order okResolve exIdx exElems exOut).2 rfl
  exact ⟨hpar.1, ((hser.2) 1).trans rfl⟩

/-- C1 exhibit: the code has no rejection handler, so when the Size
Resolver rejects for a qualifying record (here the picture element with
a matched network record), both `afterPass` variants reject the whole
pass and no output sequence is produced — the non-qualifying element of
the snapshot is lost with it. -/
theorem resolverRejection_failsWholePass :
    afterPassSerial failResolve exIdx exElems = Except.error ()
    ∧ afterPassParallel failResolve exIdx exElems = Except.error ()
    ∧ needsSizeResolution (correlateOne exIdx exPictureElement) = true :=
  ⟨rfl, rfl, rfl⟩

/-- C7: srcset parsing yields the empty sequence for an empty srcset
attribute and otherwise exactly one candidate per comma-separated entry
(one more than the number of commas); a candidate whose normalisation
fails is retained verbatim at its position; the embedding is a total
function, i.e. parsing never throws. -/
theorem parseSrcsetUrls_spec (resolveUrl : String → Option String) (srcset : String) :
    parseSrcsetUrls resolveUrl "" = []
    ∧ (srcset ≠ "" →
        (parseSrcsetUrls resolveUrl srcset).length = srcset.data.count ',' + 1)
    ∧ (srcset ≠ "" → ∀ i url,
        ((jsSplitOn ',' srcset).map fun entry =>
          (jsSplitOn ' ' (jsTrim entry)).headD "").get? i = some url →
        resolveUrl url = none →
        (parseSrcsetUrls resolveUrl srcset).get? i = some url) := by
  refine ⟨rfl, ?_, ?_⟩
  · intro h
    simp [parseSrcsetUrls, h, jsSplitOn, jsSplit_length]
  · intro h i url hc hre
    simp only [parseSrcsetUrls, if_neg h]
    rw [List.get?_map, hc, Option.map_some', hre]
    rfl

theorem parseSrcsetUrls_spec_witness :
    (parseSrcsetUrls noResolveUrl "a.png 1x, b.png 2x").length = 2
    ∧ (parseSrcsetUrls noResolveUrl "a.png 1x, b.png 2x").get? 1 = some "b.png" := by
  refine ⟨((parseSrcsetUrls_spec noResolveUrl "a.png 1x, b.png 2x").2.1
    (by decide)).trans (by decide), ?_⟩
  exact (parseSrcsetUrls_spec noResolveUrl "a.png 1x, b.png 2x").2.2
    (by decide) 1 "b.png" (by decide) rfl

/-- C8: for an image grouped under a `picture` parent, the collected
`sources` sequence is exactly the sibling SOURCE descriptors passing
the media filter, in document order, with the chosen image's own
descriptor appended last — hence never empty, its last element being
the chosen image's descriptor, even when zero sources match. -/
theorem pictureSources_shape (resolveUrl : String → Option String)
    (matchMedia : String → Bool) (d : DomImg) (h : d.parentTagName = "PICTURE") :
    (collectOneImage resolveUrl matchMedia d).sources
      = some ((((d.parentChildren.filter fun element => element.tagName == "SOURCE").filter
            fun element => element.media == "" || matchMedia element.media).map
          (getElementInfo resolveUrl))
        ++ [getElementInfo resolveUrl d.img])
    ∧ (∀ srcs, (collectOneImage resolveUrl matchMedia d).sources = some srcs →
        srcs ≠ [] ∧ srcs.getLast? = some (getElementInfo resolveUrl d.img))
    ∧ (collectOneImage resolveUrl matchMedia d).isPicture = true := by
  have hcond : ¬ (d.parentTagName ≠ "PICTURE") := by simp [h]
  refine ⟨?_, ?_, ?_⟩
  · simp [collectOneImage, hcond]
  · intro srcs hsrcs
    simp only [collectOneImage, if_neg hcond, Option.some.injEq] at hsrcs
    subst hsrcs
    exact ⟨by simp, List.getLast?_concat _⟩
  · simp [collectOneImage, hcond]

theorem pictureSources_shape_witness :
    (collectOneImage noResolveUrl allMedia exPictureImg).sources
      = some [getElementInfo noResolveUrl exSourceDom, getElementInfo noResolveUrl exImgDom] := by
  have h := (pictureSources_shape noResolveUrl allMedia exPictureImg rfl).1
  exact h.trans (by decide)

/-- C10: when the Size Resolver succeeds for a qualifying record, the
outcome is exactly the correlated record with `naturalWidth` and
`naturalHeight` overwritten by the resolved dimensions, and every
other field — descriptor fields, `isPicture`, `sources`, and the
attached network record — is unchanged. -/
theorem successfulResolution_overwrites_only_size {ν : Type}
    (resolve : String → Except Unit NaturalSize) (idx : String → Option ν)
    (element : ImageElement) (size : NaturalSize)
    (hq : needsSizeResolution (correlateOne idx element) = true)
    (hr : resolve element.src = Except.ok size) :
    processOne resolve idx element
      = Except.ok { correlateOne idx element with
          naturalWidth := size.naturalWidth, naturalHeight := size.naturalHeight }
    ∧ ∀ record, processOne resolve idx element = Except.ok record →
        record.tagName = element.tagName
        ∧ record.src = element.src
        ∧ record.srcset = element.srcset
        ∧ record.srcsetUrls = element.srcsetUrls
        ∧ record.sizes = element.sizes
        ∧ record.media = element.media
        ∧ record.clientWidth = element.clientWidth
        ∧ record.clientHeight = element.clientHeight
        ∧ record.isPicture = element.isPicture
        ∧ record.sources = element.sources
        ∧ record.networkRecord = idx element.src
        ∧ record.naturalWidth = size.naturalWidth
        ∧ record.naturalHeight = size.naturalHeight := by
  have h' : needsSizeResolution
      { toImageElement := element, networkRecord := idx element.src } = true := hq
  have hmain : processOne resolve idx element
      = Except.ok { correlateOne idx element with
          naturalWidth := size.naturalWidth, naturalHeight := size.naturalHeight } := by
    simp only [processOne, correlateOne, h', if_true, fetchWithSizeInformation, hr]
    rfl
  refine ⟨hmain, ?_⟩
  intro record h
  rw [hmain] at h
  injection h with h
  subst h
  exact ⟨rfl, rfl, rfl, rfl, rfl, rfl, rfl, rfl, rfl, rfl, rfl, rfl, rfl⟩

theorem successfulResolution_witness :
    processOne okResolve exIdx exPictureElement
      = Except.ok { correlateOne exIdx exPictureElement with
          naturalWidth := 100, naturalHeight := 50 } :=
  (successfulResolution_overwrites_only_size okResolve exIdx exPictureElement
    { naturalWidth := 100, naturalHeight := 50 } rfl rfl).1

end ImageUsage
